import Mathlib

/-!
Shallow embedding of the GridWars ("Neon Dominion") authoritative game core,
translated from the TypeScript backend sources:

* `backend/src/types/index.ts` — core types and `getRankTier`
* `backend/src/services/GridService.ts` — `GridService` (tile grid, capture,
  cluster search), `UserService` (capture counts, rank, leaderboard) and
  `GameRoundService` (round life cycle)
* `backend/src/services/EnergyService.ts` — per-participant energy ledger
* `backend/src/middleware/RateLimiter.ts` — sliding-window rate limiter
* `backend/src/websocket/SocketHandler.ts` — the capture-request policy chain

Modelling conventions: JavaScript millisecond timestamps become `Nat`,
energy/scores become `Int`/`Nat` with the exact arithmetic of the source
(`Math.floor` of a non-negative division becomes `Nat` division), JavaScript
`Map`s become association lists preserving insertion order (iteration order of
a JS `Map` is insertion order), `Array.prototype.sort` (stable since ES2019)
becomes `List.mergeSort` (also stable), and `Date.now()` becomes an explicit
`now : Nat` parameter.  Socket emissions are modelled as a list of events
tagged with whether they go to all clients (`io.emit`) or only to the
requesting socket (`socket.emit`).
-/

namespace GridWars

/-! ### Rank tiers — `backend/src/types/index.ts` -/

inductive RankTier
  | bronze | silver | gold | diamond | neon
deriving DecidableEq, Repr

/-- `getRankTier` from `types/index.ts`:
`if (captures >= 200) return 'Neon'; if (captures >= 100) return 'Diamond';
 if (captures >= 50) return 'Gold'; if (captures >= 20) return 'Silver';
 return 'Bronze';` -/
def getRankTier (captures : Nat) : RankTier :=
  if 200 ≤ captures then .neon
  else if 100 ≤ captures then .diamond
  else if 50 ≤ captures then .gold
  else if 20 ≤ captures then .silver
  else .bronze

/-- Height of a tier in the strictly ordered ladder Bronze < Silver < Gold <
Diamond < Neon (used to state monotonicity of `getRankTier`). -/
def rankIdx : RankTier → Nat
  | .bronze => 0
  | .silver => 1
  | .gold => 2
  | .diamond => 3
  | .neon => 4

/-! ### Cells and the grid — `GridService.ts` -/

/-- Cell ids are `"x-y"` strings in the source; adjacency arithmetic is done on
the parsed coordinates, so we use the coordinates themselves as the key.
Neighbour ids that fall outside the grid simply fail the map lookup, exactly as
the string id `"-1-0"` fails `grid.get` in the source. -/
abbrev CellId := Int × Int

structure Cell where
  ownerId : Option String
  color : Option String
  lastCapturedAt : Nat
  isCore : Bool
deriving DecidableEq, Repr

/-- The `Map<string, Cell>` of `GridService`, as an insertion-ordered
association list. -/
abbrev Grid := List (CellId × Cell)

def gridSet (g : Grid) (id : CellId) (c : Cell) : Grid :=
  g.map fun e => if e.1 = id then (id, c) else e

inductive CaptureOutcome
  | invalidCell
  | onCooldown
  | captured (cell : Cell) (pointsAwarded : Nat)
deriving DecidableEq, Repr

/-- `GridService.captureCell`.  The cooldown guard in the source is
`if (cell.lastCapturedAt && (now - cell.lastCapturedAt < this.cooldownMs))`:
a `lastCapturedAt` of `0` is falsy, so the cooldown check is skipped entirely
for never-captured cells.  JS number subtraction is modelled with `Int`. -/
def captureCell (cooldownMs : Nat) (g : Grid) (cellId : CellId)
    (userId userColor : String) (now : Nat) : CaptureOutcome × Grid :=
  match g.lookup cellId with
  | none => (.invalidCell, g)
  | some cell =>
    if cell.lastCapturedAt ≠ 0 ∧ (now : Int) - cell.lastCapturedAt < cooldownMs then
      (.onCooldown, g)
    else
      let cell2 : Cell :=
        { cell with ownerId := some userId, color := some userColor, lastCapturedAt := now }
      (.captured cell2 (if cell2.isCore then 5 else 1), gridSet g cellId cell2)

/-! ### Energy — `EnergyService.ts` -/

structure EnergyState where
  current : Int
  max : Nat
  regenRate : Nat
  lastRegenAt : Nat
deriving DecidableEq, Repr

/-- Configuration of `EnergyService` (constructor fields `maxEnergy`,
`captureCost`, `regenRate`). -/
structure EnergyConfig where
  maxEnergy : Nat
  captureCost : Nat
  regenRate : Nat
deriving Repr

/-- The `regen = Math.floor(elapsedSec * regenRate)` computation with
`elapsedSec = (now - state.lastRegenAt) / 1000`: for an integral `regenRate`
this equals `⌊elapsedMs * regenRate / 1000⌋`, which is `Nat` division here.
When `now < lastRegenAt` the JS value is negative and fails the `> 0` guard;
truncated `Nat` subtraction gives `0`, which fails the same guard. -/
def regenAmount (s : EnergyState) (now : Nat) : Nat :=
  (now - s.lastRegenAt) * s.regenRate / 1000

/-- The shared lazy-regeneration prelude of `getEnergy` and `consumeEnergy`:
`if (regenAmount > 0) { current = min(max, current + regenAmount); lastRegenAt = now; }` -/
def applyRegen (s : EnergyState) (now : Nat) : EnergyState :=
  let regen := regenAmount s now
  if 0 < regen then
    { s with current := min (s.max : Int) (s.current + regen), lastRegenAt := now }
  else s

/-- `EnergyService.initUserEnergy` (the freshly created state). -/
def initEnergyState (cfg : EnergyConfig) (now : Nat) : EnergyState :=
  { current := cfg.maxEnergy, max := cfg.maxEnergy, regenRate := cfg.regenRate,
    lastRegenAt := now }

/-- The `Map<string, EnergyState>` of `EnergyService`. -/
abbrev EnergyMap := List (String × EnergyState)

def energySet (m : EnergyMap) (userId : String) (s : EnergyState) : EnergyMap :=
  if (m.lookup userId).isSome then
    m.map fun e => if e.1 = userId then (userId, s) else e
  else m ++ [(userId, s)]

/-- `EnergyService.initUserEnergy`: creates a full-energy state and stores it. -/
def initUserEnergy (cfg : EnergyConfig) (m : EnergyMap) (userId : String)
    (now : Nat) : EnergyState × EnergyMap :=
  let s := initEnergyState cfg now
  (s, energySet m userId s)

/-- `EnergyService.getEnergy`: creates the state if missing, then applies lazy
regeneration in place and returns a copy. -/
def getEnergy (cfg : EnergyConfig) (m : EnergyMap) (userId : String)
    (now : Nat) : EnergyState × EnergyMap :=
  match m.lookup userId with
  | none =>
    let (s, m1) := initUserEnergy cfg m userId now
    let s1 := applyRegen s now
    (s1, energySet m1 userId s1)
  | some s =>
    let s1 := applyRegen s now
    (s1, energySet m userId s1)

structure ConsumeResult where
  success : Bool
  newState : EnergyState
  cost : Nat
deriving DecidableEq, Repr

/-- `EnergyService.consumeEnergy`: unknown users get an initialized state and a
failure; otherwise regeneration is applied first, then the cost is checked and,
on success, deducted with `lastRegenAt = now`. -/
def consumeEnergy (cfg : EnergyConfig) (m : EnergyMap) (userId : String)
    (now : Nat) : ConsumeResult × EnergyMap :=
  match m.lookup userId with
  | none =>
    let (s, m1) := initUserEnergy cfg m userId now
    (⟨false, s, cfg.captureCost⟩, m1)
  | some s =>
    let s1 := applyRegen s now
    if s1.current < (cfg.captureCost : Int) then
      (⟨false, s1, cfg.captureCost⟩, energySet m userId s1)
    else
      let s2 := { s1 with current := s1.current - cfg.captureCost, lastRegenAt := now }
      (⟨true, s2, cfg.captureCost⟩, energySet m userId s2)

/-- `EnergyService.resetAll`: every stored participant back to max energy. -/
def energyResetAll (cfg : EnergyConfig) (m : EnergyMap) (now : Nat) : EnergyMap :=
  m.map fun e => (e.1, { e.2 with current := cfg.maxEnergy, lastRegenAt := now })

/-- The spec invariant `0 ≤ current ≤ max` for one energy state. -/
def energyInv (s : EnergyState) : Prop :=
  0 ≤ s.current ∧ s.current ≤ (s.max : Int)

instance (s : EnergyState) : Decidable (energyInv s) := by
  unfold energyInv; infer_instance

/-! ### Rate limiting — `middleware/RateLimiter.ts` -/

/-- One identity's entry in `RateLimiter.requests`: the recorded request
timestamps, oldest first. -/
abbrev RateEntry := List Nat

/-- `RateLimiter.isAllowed` restricted to one identity's timestamp list
(entries for distinct identities never interact).  Filters out timestamps with
`now - timestamp ≥ windowMs`, denies if at least `maxRequests` remain — in
which case the map entry is left as it was, since the filtered copy is only
written back on the allow path — and otherwise records `now` and allows. -/
def rlStep (maxRequests windowMs : Nat) (st : RateEntry) (now : Nat) :
    Bool × RateEntry :=
  let valid := st.filter fun ts => now - ts < windowMs
  if maxRequests ≤ valid.length then (false, st)
  else (true, valid ++ [now])

/-- Runs a sequence of `isAllowed` calls for one identity, returning the list
of call times that were allowed. -/
def rlRun (maxRequests windowMs : Nat) (st : RateEntry) :
    List Nat → List Nat
  | [] => []
  | t :: ts =>
    let r := rlStep maxRequests windowMs st t
    if r.1 then t :: rlRun maxRequests windowMs r.2 ts
    else rlRun maxRequests windowMs r.2 ts

/-- The full `RateLimiter.requests` map. -/
abbrev RateMap := List (String × RateEntry)

def rateSet (m : RateMap) (userId : String) (st : RateEntry) : RateMap :=
  if (m.lookup userId).isSome then
    m.map fun e => if e.1 = userId then (userId, st) else e
  else m ++ [(userId, st)]

/-- `RateLimiter.isAllowed` on the map:
`const userRequests = this.requests.get(userId) || [];` then `rlStep`. -/
def isAllowed (m : RateMap) (userId : String) (maxRequests windowMs now : Nat) :
    Bool × RateMap :=
  let r := rlStep maxRequests windowMs ((m.lookup userId).getD []) now
  if r.1 then (true, rateSet m userId r.2) else (false, m)

/-! ### Users, ranks and the leaderboard — `UserService.ts` -/

structure User where
  id : String
  socketId : String
  username : String
  color : String
  faction : String
  capturesCount : Nat
  roundCaptures : Nat
  streak : Nat
  rank : RankTier
  connectedAt : Nat
  lastActivity : Nat
deriving DecidableEq, Repr

/-- `Array.from(this.users.values())` — the user map in insertion order. -/
abbrev Users := List User

def getUserBySocket (us : Users) (socketId : String) : Option User :=
  us.find? fun u => u.socketId = socketId

def getUserById (us : Users) (userId : String) : Option User :=
  us.find? fun u => u.id = userId

def updateUserActivity (us : Users) (userId : String) (now : Nat) : Users :=
  us.map fun u => if u.id = userId then { u with lastActivity := now } else u

structure IncrementResult where
  newCount : Nat
  rankUp : Option RankTier
  previousRank : RankTier
deriving DecidableEq, Repr

/-- `UserService.incrementCaptureCount`: adds `points` to the lifetime and
current-round totals, bumps the streak, recomputes the tier from the new
lifetime total and reports a rank-up exactly when the tier changed. -/
def incrementCaptureCount (us : Users) (userId : String) (points : Nat) :
    IncrementResult × Users :=
  match getUserById us userId with
  | none => (⟨0, none, .bronze⟩, us)
  | some u =>
    let newCount := u.capturesCount + points
    let newRank := getRankTier newCount
    let u2 : User :=
      { u with capturesCount := newCount, roundCaptures := u.roundCaptures + points,
               streak := u.streak + 1, rank := newRank }
    (⟨newCount, if newRank ≠ u.rank then some newRank else none, u.rank⟩,
     us.map fun v => if v.id = userId then u2 else v)

def resetRoundCaptures (us : Users) : Users :=
  us.map fun u => { u with roundCaptures := 0 }

structure LeaderboardEntry where
  username : String
  color : String
  faction : String
  capturesCount : Nat
  roundCaptures : Nat
  streak : Nat
  rank : RankTier
  position : Nat
deriving DecidableEq, Repr

/-- The sort order of `getLeaderboard`'s comparator
`(a, b) => b.roundCaptures - a.roundCaptures || b.capturesCount - a.capturesCount`:
`a` may stay before `b` exactly when the comparator is `≤ 0`. -/
def lbLE (a b : User) : Bool :=
  b.roundCaptures < a.roundCaptures ∨
    (b.roundCaptures = a.roundCaptures ∧ b.capturesCount ≤ a.capturesCount)

/-- The leaderboard projection of one user at a given 1-based position. -/
def entryOf (u : User) (position : Nat) : LeaderboardEntry :=
  { username := u.username, color := u.color, faction := u.faction,
    capturesCount := u.capturesCount, roundCaptures := u.roundCaptures,
    streak := u.streak, rank := u.rank, position := position }

/-- The trailing `.map((user, index) => ({ ..., position: index + 1 }))`,
written as a recursion on the sorted list with the next position to assign. -/
def entriesFrom (n : Nat) : List User → List LeaderboardEntry
  | [] => []
  | u :: us => entryOf u n :: entriesFrom (n + 1) us

/-- `UserService.getLeaderboard`: stable sort by the comparator above
(`Array.prototype.sort` is stable, as is `List.mergeSort`), truncate to
`limit`, then number positions from 1. -/
def getLeaderboard (us : Users) (limit : Nat) : List LeaderboardEntry :=
  entriesFrom 1 ((us.mergeSort lbLE).take limit)

/-! ### Round life cycle — `GameRoundService.ts` -/

inductive RoundStatus
  | waiting | active | ended
deriving DecidableEq, Repr

structure RoundWinner where
  username : String
  color : String
  faction : String
  score : Nat
deriving DecidableEq, Repr

structure RoundService where
  roundNumber : Nat
  status : RoundStatus
  startedAt : Nat
  endsAt : Nat
  durationMs : Nat
  cooldownMs : Nat
  winner : Option RoundWinner
deriving DecidableEq, Repr

/-- The constructor state: `roundNumber = 0`, `status = 'waiting'`, no winner. -/
def RoundService.init (durationMs cooldownMs : Nat) : RoundService :=
  { roundNumber := 0, status := .waiting, startedAt := 0, endsAt := 0,
    durationMs := durationMs, cooldownMs := cooldownMs, winner := none }

/-- `GameRoundService.startRound` (the state change; the side effects — DB
persist, scheduling the end timer, the `onRoundStart` callback — are modelled
separately). -/
def startRound (s : RoundService) (now : Nat) : RoundService :=
  { s with roundNumber := s.roundNumber + 1, status := .active, startedAt := now,
           endsAt := now + s.durationMs, winner := none }

/-- `GameRoundService.endRound(topPlayers?)`: sets the status to ended and, only
when a non-empty `topPlayers` array was passed, overwrites `winner` with the
first entry's summary. -/
def endRound (s : RoundService) (topPlayers : List LeaderboardEntry) : RoundService :=
  { s with status := .ended,
           winner := match topPlayers with
             | [] => s.winner
             | top :: _ =>
               some { username := top.username, color := top.color,
                      faction := top.faction, score := top.roundCaptures } }

/-- The round-end timer installed by `startRound`:
`this.roundTimer = setTimeout(() => { this.endRound(); }, this.durationMs);` —
it invokes `endRound` with no `topPlayers` argument, which behaves as the empty
list (`topPlayers && topPlayers.length > 0` is falsy either way). -/
def roundTimerFire (s : RoundService) : RoundService :=
  endRound s []

/-! ### Cluster search — `GridService.findLargestCluster` -/

/-- The four neighbour ids pushed in `getConnectedCluster`, in source order
`x-1`, `x+1`, `y-1`, `y+1`. -/
def neighbors (id : CellId) : List CellId :=
  [(id.1 - 1, id.2), (id.1 + 1, id.2), (id.1, id.2 - 1), (id.1, id.2 + 1)]

/-- Count of grid keys not yet visited; the termination measure of the DFS. -/
def unvisitedCount (g : Grid) (visited : List CellId) : Nat :=
  ((g.map Prod.fst).filter fun k => decide (k ∉ visited)).length

theorem length_filter_mono {α : Type} (l : List α) (p q : α → Bool)
    (h : ∀ x, p x = true → q x = true) :
    (l.filter p).length ≤ (l.filter q).length := by
  induction l with
  | nil => simp
  | cons x xs ih =>
    simp only [List.filter_cons]
    by_cases hx : p x = true
    · rw [if_pos hx, if_pos (h x hx)]
      simpa using ih
    · rw [if_neg hx]
      by_cases hq : q x = true
      · rw [if_pos hq]
        exact Nat.le_succ_of_le ih
      · rw [if_neg hq]
        exact ih

theorem length_filter_not_mem_cons_lt
    (l visited : List CellId) (a : CellId) (hmem : a ∈ l) (hnv : a ∉ visited) :
    (l.filter fun k => decide (k ∉ a :: visited)).length
      < (l.filter fun k => decide (k ∉ visited)).length := by
  induction l with
  | nil => cases hmem
  | cons k ks ih =>
    simp only [List.filter_cons]
    by_cases hka : k = a
    · subst hka
      have h1 : (decide (k ∉ k :: visited)) = false := by simp
      have h2 : (decide (k ∉ visited)) = true := by simp [hnv]
      rw [h1, h2, if_neg (by simp), if_pos rfl, List.length_cons]
      have hle : (ks.filter fun x => decide (x ∉ k :: visited)).length
          ≤ (ks.filter fun x => decide (x ∉ visited)).length := by
        apply length_filter_mono
        intro x hx
        simp only [decide_eq_true_eq, List.mem_cons, not_or] at hx ⊢
        exact hx.2
      exact Nat.lt_succ_of_le hle
    · have hmem' : a ∈ ks := by
        rcases List.mem_cons.mp hmem with h | h
        · exact absurd h.symm hka
        · exact h
      have hc : (decide (k ∉ a :: visited)) = (decide (k ∉ visited)) := by
        simp [List.mem_cons, hka]
      rw [hc]
      by_cases hv : (decide (k ∉ visited)) = true
      · rw [if_pos hv, if_pos hv]
        simpa using ih hmem'
      · rw [if_neg hv, if_neg hv]
        exact ih hmem'

theorem unvisitedCount_cons_lt (g : Grid) (visited : List CellId) (a : CellId)
    (hmem : a ∈ g.map Prod.fst) (hnv : a ∉ visited) :
    unvisitedCount g (a :: visited) < unvisitedCount g visited := by
  unfold unvisitedCount
  exact length_filter_not_mem_cons_lt (g.map Prod.fst) visited a hmem hnv

theorem mem_keys_of_lookup {g : Grid} {k : CellId} {c : Cell}
    (h : g.lookup k = some c) : k ∈ g.map Prod.fst := by
  rcases List.lookup_eq_some_iff.mp h with ⟨l₁, l₂, rfl, -⟩
  simp

/-- `GridService.getConnectedCluster`: the stack-based 4-connected flood search.
The stack is a list with its head on top (`push` conses after reversal so that
the source's `forEach` push order is preserved); `visited` is the mutable
`Set`.  Returns the cluster in discovery order together with the final visited
set. -/
def getConnectedCluster (g : Grid) (userId : String)
    (visited : List CellId) (stack : List CellId) (cluster : List CellId) :
    List CellId × List CellId :=
  match stack with
  | [] => (cluster, visited)
  | cellId :: rest =>
    if cellId ∈ visited then
      getConnectedCluster g userId visited rest cluster
    else
      match hcell : g.lookup cellId with
      | none => getConnectedCluster g userId visited rest cluster
      | some cell =>
        if cell.ownerId = some userId then
          let visited2 := cellId :: visited
          let toPush := (neighbors cellId).filter fun a => decide (a ∉ visited2)
          getConnectedCluster g userId visited2 (toPush.reverse ++ rest)
            (cluster ++ [cellId])
        else
          getConnectedCluster g userId visited rest cluster
termination_by (unvisitedCount g visited, stack.length)
decreasing_by
  · exact Prod.Lex.right _ (Nat.lt_succ_self _)
  · exact Prod.Lex.right _ (Nat.lt_succ_self _)
  · exact Prod.Lex.left _ _ (unvisitedCount_cons_lt g visited cellId
      (mem_keys_of_lookup hcell) (by assumption))
  · exact Prod.Lex.right _ (Nat.lt_succ_self _)

/-- The `grid.forEach` loop of `findLargestCluster`, threading the shared
`visited` set and the best cluster found so far. -/
def findLargestClusterAux (g : Grid) (userId : String) :
    List (CellId × Cell) → List CellId → List CellId → List CellId
  | [], _, maxCluster => maxCluster
  | (cellId, cell) :: rest, visited, maxCluster =>
    if cell.ownerId = some userId ∧ ¬ visited.contains cellId then
      let r := getConnectedCluster g userId visited [cellId] []
      findLargestClusterAux g userId rest r.2
        (if maxCluster.length < r.1.length then r.1 else maxCluster)
    else
      findLargestClusterAux g userId rest visited maxCluster

/-- `GridService.findLargestCluster`: size and member list of the largest
4-connected component of the user's owned cells found by the flood search. -/
def findLargestCluster (g : Grid) (userId : String) : Nat × List CellId :=
  let c := findLargestClusterAux g userId g [] []
  (c.length, c)

/-! ### The capture policy chain — `websocket/SocketHandler.ts` -/

/-- Machine-readable stand-ins for the rejection reason strings of the source
(`'User not found'`, `'Round not active. Wait for next round!'`,
`'Not enough energy!'`, `'Cell on cooldown (…s remaining)'`,
`'Invalid cell ID'`). -/
inductive RejectReason
  | userNotFound
  | roundNotActive
  | notEnoughEnergy
  | cellOnCooldown
  | invalidCellId
deriving DecidableEq, Repr

/-- The socket events emitted during `handleCaptureRequest`.  Activity-feed
payload strings are presentation only and are elided. -/
inductive GameEvent
  | captureRejected (cellId : CellId) (reason : RejectReason)
  | rateLimited
  | energyUpdate (state : EnergyState)
  | cellUpdated (cellId : CellId) (cell : Cell)
  | activityFeed
  | clusterBonus (userId : String) (clusterSize bonusPoints : Nat)
  | rankUp (username : String) (newRank previousRank : RankTier)
  | leaderboardUpdate (entries : List LeaderboardEntry)
deriving DecidableEq, Repr

/-- An emission: `toAll = true` for `io.emit` (broadcast to every client),
`toAll = false` for `socket.emit` (delivered only to the requester). -/
structure Sent where
  toAll : Bool
  event : GameEvent
deriving DecidableEq, Repr

/-- Recognizes a `cluster_bonus` emission. -/
def Sent.isClusterBonus : Sent → Bool
  | ⟨_, .clusterBonus _ _ _⟩ => true
  | _ => false

/-- The server-side configuration relevant to one capture request. -/
structure Config where
  cooldownMs : Nat
  maxCapturesPerSecond : Nat
  rateLimitWindowMs : Nat
  energy : EnergyConfig
deriving Repr

/-- The aggregate in-memory state touched by `SocketHandler.handleCaptureRequest`. -/
structure ServerState where
  users : Users
  energy : EnergyMap
  rate : RateMap
  grid : Grid
  round : RoundService
deriving Repr

/-- The success tail of `handleCaptureRequest` (everything inside
`if (result.success && result.cell)`), given the captured cell, points, the
post-consume energy state and the requesting user. -/
def handleCaptureSuccess (st : ServerState) (user : User) (cellId : CellId)
    (cell : Cell) (points : Nat) (energyState : EnergyState) :
    ServerState × List Sent :=
  let inc := incrementCaptureCount st.users user.id points
  let st1 := { st with users := inc.2 }
  let sends0 : List Sent :=
    [⟨true, .cellUpdated cellId cell⟩, ⟨false, .energyUpdate energyState⟩,
     ⟨true, .activityFeed⟩]
  let cluster := findLargestCluster st1.grid user.id
  let withBonus :=
    if 5 ≤ cluster.1 ∧ cluster.1 % 5 = 0 then
      let bonusPoints := cluster.1 / 5
      let inc2 := incrementCaptureCount st1.users user.id bonusPoints
      ({ st1 with users := inc2.2 },
       [⟨true, .clusterBonus user.id cluster.1 bonusPoints⟩, ⟨true, .activityFeed⟩])
    else (st1, ([] : List Sent))
  let st2 := withBonus.1
  let rankSends : List Sent :=
    match inc.1.rankUp with
    | some r => [⟨true, .rankUp user.username r inc.1.previousRank⟩, ⟨true, .activityFeed⟩]
    | none => []
  (st2, sends0 ++ withBonus.2 ++ rankSends ++
    [⟨true, .leaderboardUpdate (getLeaderboard st2.users 10)⟩])

/-- `SocketHandler.handleCaptureRequest`: the ordered short-circuiting policy
chain — identity, round-active, rate limit, energy, grid capture — followed by
the success tail.  `Date.now()` is the single `now` parameter. -/
def handleCaptureRequest (cfg : Config) (st : ServerState) (socketId : String)
    (cellId : CellId) (now : Nat) : ServerState × List Sent :=
  match getUserBySocket st.users socketId with
  | none => (st, [⟨false, .captureRejected cellId .userNotFound⟩])
  | some user =>
    if st.round.status ≠ .active then
      (st, [⟨false, .captureRejected cellId .roundNotActive⟩])
    else
      let rl := isAllowed st.rate user.id cfg.maxCapturesPerSecond cfg.rateLimitWindowMs now
      let st1 := { st with rate := rl.2 }
      if rl.1 = false then
        (st1, [⟨false, .rateLimited⟩])
      else
        let er := consumeEnergy cfg.energy st1.energy user.id now
        let st2 := { st1 with energy := er.2 }
        if er.1.success = false then
          (st2, [⟨false, .captureRejected cellId .notEnoughEnergy⟩,
                 ⟨false, .energyUpdate er.1.newState⟩])
        else
          let st3 := { st2 with users := updateUserActivity st2.users user.id now }
          let cap := captureCell cfg.cooldownMs st3.grid cellId user.id user.color now
          let st4 := { st3 with grid := cap.2 }
          match cap.1 with
          | .captured cell points =>
            handleCaptureSuccess st4 user cellId cell points er.1.newState
          | .onCooldown =>
            (st4, [⟨false, .captureRejected cellId .cellOnCooldown⟩])
          | .invalidCell =>
            (st4, [⟨false, .captureRejected cellId .invalidCellId⟩])

/-! ## Helper lemmas -/

theorem captureCell_of_cooldown {cooldownMs : Nat} {g : Grid} {cellId : CellId}
    {cell : Cell} {userId userColor : String} {now : Nat}
    (hlook : g.lookup cellId = some cell) (hne : cell.lastCapturedAt ≠ 0)
    (hcd : (now : Int) - cell.lastCapturedAt < cooldownMs) :
    captureCell cooldownMs g cellId userId userColor now = (.onCooldown, g) := by
  unfold captureCell
  rw [hlook]
  simp only [ne_eq]
  rw [if_pos ⟨hne, hcd⟩]

theorem captureCell_of_ready {cooldownMs : Nat} {g : Grid} {cellId : CellId}
    {cell : Cell} {userId userColor : String} {now : Nat}
    (hlook : g.lookup cellId = some cell)
    (hok : ¬(cell.lastCapturedAt ≠ 0 ∧ (now : Int) - cell.lastCapturedAt < cooldownMs)) :
    captureCell cooldownMs g cellId userId userColor now =
      (.captured { cell with ownerId := some userId, color := some userColor,
                             lastCapturedAt := now }
         (if cell.isCore then 5 else 1),
       gridSet g cellId { cell with ownerId := some userId, color := some userColor,
                                    lastCapturedAt := now }) := by
  unfold captureCell
  rw [hlook]
  simp only [ne_eq]
  rw [if_neg hok]

/-! ## C10 — never-captured tiles skip the cooldown check entirely -/

/-- **C10.** A tile whose `lastCapturedAt` is 0 (never captured since grid
initialization or reset) is always capturable: the cooldown check is skipped
entirely when `lastCapturedAt` is 0, so a capture of such a tile succeeds for
every value of `now` — the hypotheses put no lower bound on `now`, so this
covers `now < cooldownMs`, where the literal formula
`now − lastCapturedAt < cooldownMs` would reject. -/
theorem fresh_cell_always_capturable
    (cooldownMs : Nat) (g : Grid) (cellId : CellId) (cell : Cell)
    (userId userColor : String) (now : Nat)
    (hlook : g.lookup cellId = some cell) (hfresh : cell.lastCapturedAt = 0) :
    captureCell cooldownMs g cellId userId userColor now =
      (.captured { cell with ownerId := some userId, color := some userColor,
                             lastCapturedAt := now }
         (if cell.isCore then 5 else 1),
       gridSet g cellId { cell with ownerId := some userId, color := some userColor,
                                    lastCapturedAt := now }) :=
  captureCell_of_ready hlook (by simp [hfresh])

/-- Witness for C10 at a concrete input with `now = 0 < cooldownMs = 5000`,
where the literal cooldown formula would reject but the capture succeeds. -/
theorem fresh_cell_always_capturable_witness :
    (0 : Int) - (0 : Nat) < 5000 ∧
    captureCell 5000 [((3, 4), ⟨none, none, 0, false⟩)] (3, 4) "u" "#fff" 0 =
      (.captured ⟨some "u", some "#fff", 0, false⟩ 1,
       [((3, 4), ⟨some "u", some "#fff", 0, false⟩)]) := by
  constructor
  · decide
  · exact fresh_cell_always_capturable 5000 [((3, 4), ⟨none, none, 0, false⟩)] (3, 4)
      ⟨none, none, 0, false⟩ "u" "#fff" 0 (by rfl) rfl

/-! ## C2 — the per-tile cooldown rule of `capture` -/

/-- **C2, counterexample.** The claim "a capture call at time `now` fails with
the cooldown reason if and only if `now − tile.lastCapturedAt < cooldownMs`"
is false as stated: for a never-captured tile (`lastCapturedAt = 0`) at
`now = 0` with `cooldownMs = 5000` the formula `now − lastCapturedAt <
cooldownMs` holds, yet the capture succeeds, because the source guard
`cell.lastCapturedAt && …` skips the check for falsy `0`. -/
theorem capture_cooldown_iff_counterexample :
    ((0 : Int) - (0 : Nat) < 5000) ∧
    (captureCell 5000 [((3, 4), ⟨none, none, 0, false⟩)] (3, 4) "u" "#fff" 0).1 ≠
      .onCooldown := by
  constructor
  · decide
  · decide

/-- **C2, amended.** For every tile that has been captured before
(`lastCapturedAt ≠ 0`), a capture call at time `now` fails with the cooldown
reason if and only if `now − tile.lastCapturedAt < cooldownMs` (so an attempt
at or after exactly `cooldownMs` since the last capture succeeds), and on
success the tile's owner, color and `lastCapturedAt` are set to the given
owner, color and `now`, with returned points 5 for a core zone and 1
otherwise.  (Never-captured tiles, excluded here, always succeed — C10.) -/
theorem capture_cooldown_iff
    (cooldownMs : Nat) (g : Grid) (cellId : CellId) (cell : Cell)
    (userId userColor : String) (now : Nat)
    (hlook : g.lookup cellId = some cell) (hne : cell.lastCapturedAt ≠ 0) :
    ((captureCell cooldownMs g cellId userId userColor now).1 = .onCooldown ↔
      (now : Int) - cell.lastCapturedAt < cooldownMs) ∧
    (¬((now : Int) - cell.lastCapturedAt < cooldownMs) →
      captureCell cooldownMs g cellId userId userColor now =
        (.captured { cell with ownerId := some userId, color := some userColor,
                               lastCapturedAt := now }
           (if cell.isCore then 5 else 1),
         gridSet g cellId { cell with ownerId := some userId, color := some userColor,
                                      lastCapturedAt := now })) := by
  constructor
  · constructor
    · intro h
      by_contra hcd
      rw [captureCell_of_ready hlook (fun hc => hcd hc.2)] at h
      exact CaptureOutcome.noConfusion h
    · intro hcd
      rw [captureCell_of_cooldown hlook hne hcd]
  · intro hcd
    exact captureCell_of_ready hlook (fun hc => hcd hc.2)

/-- Witness for C2 (amended): a tile last captured at 1000 is rejected at
`now = 2000` (cooldown 5000) and succeeds at `now = 6000 = 1000 + 5000`
exactly when the cooldown has elapsed. -/
theorem capture_cooldown_iff_witness :
    (((captureCell 5000 [((3, 4), ⟨none, none, 1000, false⟩)] (3, 4) "u" "#fff" 2000).1 =
        .onCooldown ↔ (2000 : Int) - (1000 : Nat) < 5000) ∧
     ((captureCell 5000 [((3, 4), ⟨none, none, 1000, false⟩)] (3, 4) "u" "#fff" 6000).1 =
        .onCooldown ↔ (6000 : Int) - (1000 : Nat) < 5000)) ∧
    (captureCell 5000 [((3, 4), ⟨none, none, 1000, false⟩)] (3, 4) "u" "#fff" 6000).1 =
      .captured ⟨some "u", some "#fff", 6000, false⟩ 1 := by
  refine ⟨⟨(capture_cooldown_iff 5000 [((3, 4), ⟨none, none, 1000, false⟩)] (3, 4)
             ⟨none, none, 1000, false⟩ "u" "#fff" 2000 (by rfl) (by decide)).1,
           (capture_cooldown_iff 5000 [((3, 4), ⟨none, none, 1000, false⟩)] (3, 4)
             ⟨none, none, 1000, false⟩ "u" "#fff" 6000 (by rfl) (by decide)).1⟩, ?_⟩
  have h := (capture_cooldown_iff 5000
    [((3, 4), ⟨none, none, 1000, false⟩)] (3, 4) ⟨none, none, 1000, false⟩
    "u" "#fff" 6000 (by rfl) (by decide)).2 (by decide)
  rw [h]
  rfl

/-! ## Energy lemmas -/

theorem mem_of_lookup_eq_some {α β : Type} [BEq α] [LawfulBEq α]
    {m : List (α × β)} {k : α} {v : β} (h : m.lookup k = some v) : (k, v) ∈ m := by
  rcases List.lookup_eq_some_iff.mp h with ⟨l₁, l₂, rfl, -⟩
  simp

theorem applyRegen_inv {s : EnergyState} {now : Nat} (h : energyInv s) :
    energyInv (applyRegen s now) := by
  unfold applyRegen
  dsimp only
  by_cases hr : 0 < regenAmount s now
  · rw [if_pos hr]
    refine ⟨le_min (Int.natCast_nonneg _) ?_, min_le_left _ _⟩
    exact add_nonneg h.1 (Int.natCast_nonneg _)
  · rw [if_neg hr]
    exact h

theorem applyRegen_max (s : EnergyState) (now : Nat) :
    (applyRegen s now).max = s.max := by
  unfold applyRegen
  dsimp only
  split <;> rfl

theorem applyRegen_lastRegenAt (s : EnergyState) (now : Nat) :
    (applyRegen s now).lastRegenAt =
      if 0 < regenAmount s now then now else s.lastRegenAt := by
  unfold applyRegen
  dsimp only
  split <;> simp_all

theorem energySet_forall {P : EnergyState → Prop} {m : EnergyMap} {uid : String}
    {s : EnergyState} (hm : ∀ p ∈ m, P p.2) (hs : P s) :
    ∀ p ∈ energySet m uid s, P p.2 := by
  unfold energySet
  by_cases hsome : (m.lookup uid).isSome
  · rw [if_pos hsome]
    intro p hp
    rcases List.mem_map.mp hp with ⟨q, hq, rfl⟩
    by_cases hq1 : q.1 = uid
    · rw [if_pos hq1]
      exact hs
    · rw [if_neg hq1]
      exact hm q hq
  · rw [if_neg hsome]
    intro p hp
    rcases List.mem_append.mp hp with h | h
    · exact hm p h
    · rcases List.mem_singleton.mp h with rfl
      exact hs

theorem getEnergy_known {cfg : EnergyConfig} {m : EnergyMap} {uid : String}
    {now : Nat} {s : EnergyState} (h : m.lookup uid = some s) :
    getEnergy cfg m uid now = (applyRegen s now, energySet m uid (applyRegen s now)) := by
  unfold getEnergy
  rw [h]

theorem consumeEnergy_success {cfg : EnergyConfig} {m : EnergyMap} {uid : String}
    {now : Nat} {s : EnergyState} (h : m.lookup uid = some s)
    (hc : ¬((applyRegen s now).current < (cfg.captureCost : Int))) :
    consumeEnergy cfg m uid now =
      (⟨true, { applyRegen s now with
                  current := (applyRegen s now).current - cfg.captureCost,
                  lastRegenAt := now }, cfg.captureCost⟩,
       energySet m uid { applyRegen s now with
                           current := (applyRegen s now).current - cfg.captureCost,
                           lastRegenAt := now }) := by
  unfold consumeEnergy
  rw [h]
  dsimp only
  rw [if_neg hc]

theorem consumeEnergy_insufficient {cfg : EnergyConfig} {m : EnergyMap} {uid : String}
    {now : Nat} {s : EnergyState} (h : m.lookup uid = some s)
    (hc : (applyRegen s now).current < (cfg.captureCost : Int)) :
    consumeEnergy cfg m uid now =
      (⟨false, applyRegen s now, cfg.captureCost⟩,
       energySet m uid (applyRegen s now)) := by
  unfold consumeEnergy
  rw [h]
  dsimp only
  rw [if_pos hc]

/-! ## C4 — the energy invariant `0 ≤ current ≤ max` -/

/-- **C4.** For every participant, after every `EnergyLedger` operation —
initialization, a read with lazy regeneration, a consume (successful or not),
or `resetAll` — the participant's energy state satisfies `0 ≤ current ≤ max`:
assuming every stored state satisfies the invariant (with `max` equal to the
configured maximum, as every state the service ever creates does), the state
returned by the operation and every state stored after it satisfy it again. -/
theorem energy_invariant (cfg : EnergyConfig) (m : EnergyMap) (userId : String)
    (now : Nat) (hm : ∀ p ∈ m, energyInv p.2 ∧ p.2.max = cfg.maxEnergy) :
    (energyInv (initUserEnergy cfg m userId now).1 ∧
      ∀ p ∈ (initUserEnergy cfg m userId now).2, energyInv p.2) ∧
    (energyInv (getEnergy cfg m userId now).1 ∧
      ∀ p ∈ (getEnergy cfg m userId now).2, energyInv p.2) ∧
    (energyInv (consumeEnergy cfg m userId now).1.newState ∧
      ∀ p ∈ (consumeEnergy cfg m userId now).2, energyInv p.2) ∧
    (∀ p ∈ energyResetAll cfg m now, energyInv p.2) := by
  have hinvm : ∀ p ∈ m, energyInv p.2 := fun p hp => (hm p hp).1
  have hinit : energyInv (initEnergyState cfg now) :=
    ⟨Int.natCast_nonneg _, le_refl _⟩
  refine ⟨⟨hinit, ?_⟩, ?_, ?_, ?_⟩
  · exact energySet_forall hinvm hinit
  · match hl : m.lookup userId with
    | none =>
      rw [show getEnergy cfg m userId now =
            (applyRegen (initEnergyState cfg now) now,
             energySet (energySet m userId (initEnergyState cfg now)) userId
               (applyRegen (initEnergyState cfg now) now)) from by
            unfold getEnergy initUserEnergy; rw [hl]]
      exact ⟨applyRegen_inv hinit,
        energySet_forall (energySet_forall hinvm hinit) (applyRegen_inv hinit)⟩
    | some s =>
      have hs := hinvm _ (mem_of_lookup_eq_some hl)
      rw [getEnergy_known hl]
      exact ⟨applyRegen_inv hs, energySet_forall hinvm (applyRegen_inv hs)⟩
  · match hl : m.lookup userId with
    | none =>
      rw [show consumeEnergy cfg m userId now =
            (⟨false, initEnergyState cfg now, cfg.captureCost⟩,
             energySet m userId (initEnergyState cfg now)) from by
            unfold consumeEnergy initUserEnergy; rw [hl]]
      exact ⟨hinit, energySet_forall hinvm hinit⟩
    | some s =>
      have hs := hinvm _ (mem_of_lookup_eq_some hl)
      have hs1 := @applyRegen_inv s now hs
      by_cases hc : (applyRegen s now).current < (cfg.captureCost : Int)
      · rw [consumeEnergy_insufficient hl hc]
        exact ⟨hs1, energySet_forall hinvm hs1⟩
      · rw [consumeEnergy_success hl hc]
        have h2 : energyInv { applyRegen s now with
            current := (applyRegen s now).current - cfg.captureCost,
            lastRegenAt := now } := by
          refine ⟨?_, ?_⟩
          · dsimp
            omega
          · dsimp
            have := hs1.2
            have : (applyRegen s now).current - (cfg.captureCost : Int) ≤
                (applyRegen s now).current := by omega
            exact le_trans this hs1.2
        exact ⟨h2, energySet_forall hinvm h2⟩
  · intro p hp
    rcases List.mem_map.mp hp with ⟨q, hq, rfl⟩
    refine ⟨Int.natCast_nonneg _, ?_⟩
    dsimp
    rw [(hm q hq).2]

/-- Witness for C4 on a concrete one-participant ledger. -/
theorem energy_invariant_witness :
    (∀ p ∈ [("u", (⟨50, 100, 1, 0⟩ : EnergyState))],
       energyInv p.2 ∧ p.2.max = (100 : Nat)) ∧
    energyInv (consumeEnergy ⟨100, 5, 1⟩ [("u", ⟨50, 100, 1, 0⟩)] "u" 500).1.newState := by
  refine ⟨by decide, ?_⟩
  exact (energy_invariant ⟨100, 5, 1⟩ [("u", ⟨50, 100, 1, 0⟩)] "u" 500
    (by decide)).2.2.1.1

/-! ## C5 — when the regeneration timestamp advances -/

/-- **C5, counterexample.** The claim that *every* access advances the stored
regeneration timestamp to the access time is false: a `getEnergy` read 500 ms
after the last regeneration (regen rate 1/s) computes a regeneration amount of
0, so the `regenAmount > 0` guard fails and `lastRegenAt` stays 0 instead of
advancing to 500. -/
theorem regen_timestamp_always_advances_counterexample :
    (getEnergy ⟨100, 5, 1⟩ [("u", ⟨50, 100, 1, 0⟩)] "u" 500).1.lastRegenAt = 0 ∧
    (0 : Nat) ≠ 500 := by
  constructor
  · rfl
  · decide

/-- **C5, amended.** For a participant with a stored energy state, a read
advances the stored regeneration timestamp to the access time exactly when the
lazy regeneration amount `⌊elapsedSec · regenRate⌋` is positive (otherwise it
is left unchanged, preserving the fractional window); a successful consume
always advances it to the access time; and a consume that fails with
insufficient energy advances it under the same positive-regeneration condition
as a read — so any whole elapsed regeneration window is spent whether or not
consumption succeeds. -/
theorem regen_timestamp_spec (cfg : EnergyConfig) (m : EnergyMap)
    (userId : String) (now : Nat) (s : EnergyState)
    (h : m.lookup userId = some s) :
    ((getEnergy cfg m userId now).1.lastRegenAt =
        if 0 < regenAmount s now then now else s.lastRegenAt) ∧
    ((consumeEnergy cfg m userId now).1.success = true →
        (consumeEnergy cfg m userId now).1.newState.lastRegenAt = now) ∧
    ((consumeEnergy cfg m userId now).1.success = false →
        (consumeEnergy cfg m userId now).1.newState.lastRegenAt =
          if 0 < regenAmount s now then now else s.lastRegenAt) := by
  refine ⟨?_, ?_, ?_⟩
  · rw [getEnergy_known h]
    exact applyRegen_lastRegenAt s now
  · intro hsucc
    by_cases hc : (applyRegen s now).current < (cfg.captureCost : Int)
    · rw [consumeEnergy_insufficient h hc] at hsucc
      simp at hsucc
    · rw [consumeEnergy_success h hc]
  · intro hfail
    by_cases hc : (applyRegen s now).current < (cfg.captureCost : Int)
    · rw [consumeEnergy_insufficient h hc]
      exact applyRegen_lastRegenAt s now
    · rw [consumeEnergy_success h hc] at hfail
      simp at hfail

/-- Witness for C5 (amended): at `now = 2500` with rate 1/s and last
regeneration at 0 the computed regeneration is positive, so both a read and a
failed consume advance the timestamp to 2500. -/
theorem regen_timestamp_spec_witness :
    (getEnergy ⟨100, 5, 1⟩ [("u", ⟨50, 100, 1, 0⟩)] "u" 2500).1.lastRegenAt =
      (if 0 < regenAmount ⟨50, 100, 1, 0⟩ 2500 then 2500 else 0) := by
  exact (regen_timestamp_spec ⟨100, 5, 1⟩ [("u", ⟨50, 100, 1, 0⟩)] "u" 2500
    ⟨50, 100, 1, 0⟩ rfl).1

/-! ## User / rank lemmas -/

theorem getUserById_id {us : Users} {userId : String} {u : User}
    (h : getUserById us userId = some u) : u.id = userId := by
  have := List.find?_some h
  simpa using this

theorem getUserById_map_set {us : Users} {userId : String} {u u2 : User}
    (h : getUserById us userId = some u) (hid : u2.id = userId) :
    getUserById (us.map fun v => if v.id = userId then u2 else v) userId = some u2 := by
  unfold getUserById at *
  induction us with
  | nil => simp at h
  | cons v vs ih =>
    by_cases hv : v.id = userId
    · simp only [List.map_cons, if_pos hv]
      exact List.find?_cons_of_pos _ (by simp [hid])
    · simp only [List.map_cons, if_neg hv]
      rw [List.find?_cons_of_neg _ (by simp [hv])]
      rw [List.find?_cons_of_neg _ (by simp [hv])] at h
      exact ih h

theorem getRankTier_boundaries (c : Nat) :
    (getRankTier c = .bronze ↔ c < 20) ∧
    (getRankTier c = .silver ↔ 20 ≤ c ∧ c < 50) ∧
    (getRankTier c = .gold ↔ 50 ≤ c ∧ c < 100) ∧
    (getRankTier c = .diamond ↔ 100 ≤ c ∧ c < 200) ∧
    (getRankTier c = .neon ↔ 200 ≤ c) := by
  unfold getRankTier
  split_ifs <;> simp_all <;> omega

theorem getRankTier_mono (a b : Nat) (h : a ≤ b) :
    rankIdx (getRankTier a) ≤ rankIdx (getRankTier b) := by
  unfold getRankTier
  split_ifs <;> simp_all [rankIdx] <;> omega

/-! ## C7 — capture-count increments and the rank step function -/

/-- **C7.** `incrementCaptureCount(id, points)` adds `points` to both the
lifetime and current-round totals and sets the rank to the step function of
the new lifetime total (`<20` Bronze, `<50` Silver, `<100` Gold, `<200`
Diamond, `≥200` Neon), which is monotonic in lifetime captures; it reports a
rank-up (previous tier plus new tier) if and only if the new tier differs from
the previous tier — never on a same-tier update. -/
theorem incrementCaptureCount_rank_spec (us : Users) (userId : String)
    (points : Nat) (u : User) (h : getUserById us userId = some u) :
    (incrementCaptureCount us userId points).1.newCount = u.capturesCount + points ∧
    (incrementCaptureCount us userId points).1.previousRank = u.rank ∧
    getUserById (incrementCaptureCount us userId points).2 userId =
      some { u with capturesCount := u.capturesCount + points,
                    roundCaptures := u.roundCaptures + points,
                    streak := u.streak + 1,
                    rank := getRankTier (u.capturesCount + points) } ∧
    (incrementCaptureCount us userId points).1.rankUp =
      (if getRankTier (u.capturesCount + points) ≠ u.rank
       then some (getRankTier (u.capturesCount + points)) else none) ∧
    ((incrementCaptureCount us userId points).1.rankUp ≠ none ↔
      getRankTier (u.capturesCount + points) ≠ u.rank) ∧
    (∀ c : Nat,
      (getRankTier c = .bronze ↔ c < 20) ∧
      (getRankTier c = .silver ↔ 20 ≤ c ∧ c < 50) ∧
      (getRankTier c = .gold ↔ 50 ≤ c ∧ c < 100) ∧
      (getRankTier c = .diamond ↔ 100 ≤ c ∧ c < 200) ∧
      (getRankTier c = .neon ↔ 200 ≤ c)) ∧
    (∀ a b : Nat, a ≤ b → rankIdx (getRankTier a) ≤ rankIdx (getRankTier b)) := by
  have hid := getUserById_id h
  unfold incrementCaptureCount
  rw [h]
  dsimp only
  refine ⟨rfl, rfl, ?_, rfl, ?_, getRankTier_boundaries, getRankTier_mono⟩
  · exact getUserById_map_set h hid
  · by_cases hr : getRankTier (u.capturesCount + points) = u.rank
    · simp [hr]
    · simp [hr]

/-- Witness for C7: a user at 19 lifetime captures gaining 1 point crosses the
Bronze→Silver boundary, and the reported rank-up is exactly Silver. -/
theorem incrementCaptureCount_rank_spec_witness :
    (incrementCaptureCount
        [⟨"u1", "s1", "Bob", "#fff", "Neon Wolves", 19, 2, 0, .bronze, 0, 0⟩]
        "u1" 1).1.newCount = 20 ∧
    (incrementCaptureCount
        [⟨"u1", "s1", "Bob", "#fff", "Neon Wolves", 19, 2, 0, .bronze, 0, 0⟩]
        "u1" 1).1.rankUp =
      (if getRankTier 20 ≠ RankTier.bronze then some (getRankTier 20) else none) := by
  have h := incrementCaptureCount_rank_spec
    [⟨"u1", "s1", "Bob", "#fff", "Neon Wolves", 19, 2, 0, .bronze, 0, 0⟩]
    "u1" 1 ⟨"u1", "s1", "Bob", "#fff", "Neon Wolves", 19, 2, 0, .bronze, 0, 0⟩ rfl
  exact ⟨h.1, h.2.2.2.1⟩

/-! ## Leaderboard lemmas -/

theorem lbLE_total (a b : User) : lbLE a b || lbLE b a := by
  simp only [lbLE, Bool.or_eq_true, decide_eq_true_eq]
  omega

theorem lbLE_trans (a b c : User) (h1 : lbLE a b) (h2 : lbLE b c) : lbLE a c := by
  simp only [lbLE, decide_eq_true_eq] at *
  omega

theorem entriesFrom_length : ∀ (n : Nat) (l : List User),
    (entriesFrom n l).length = l.length
  | _, [] => rfl
  | n, _ :: us => by
    simp only [entriesFrom, List.length_cons]
    rw [entriesFrom_length (n + 1) us]

theorem entriesFrom_positions : ∀ (n : Nat) (l : List User),
    (entriesFrom n l).map (fun e => e.position) = List.range' n l.length
  | _, [] => rfl
  | n, u :: us => by
    simp only [entriesFrom, List.map_cons, List.length_cons, List.range'_succ]
    rw [entriesFrom_positions (n + 1) us]
    rfl

theorem mem_entriesFrom {e : LeaderboardEntry} :
    ∀ {n : Nat} {l : List User}, e ∈ entriesFrom n l →
      ∃ v ∈ l, ∃ m : Nat, e = entryOf v m := by
  intro n l
  induction l generalizing n with
  | nil => intro h; cases h
  | cons u us ih =>
    intro h
    rcases List.mem_cons.mp h with h | h
    · exact ⟨u, List.mem_cons_self u us, n, h⟩
    · rcases ih h with ⟨v, hv, m, hm⟩
      exact ⟨v, List.mem_cons_of_mem u hv, m, hm⟩

theorem entriesFrom_pairwise (S : User → User → Prop)
    {T : LeaderboardEntry → LeaderboardEntry → Prop}
    (hco : ∀ (u v : User) (n m : Nat), S u v → T (entryOf u n) (entryOf v m)) :
    ∀ (n : Nat) (l : List User), l.Pairwise S → (entriesFrom n l).Pairwise T := by
  intro n l
  induction l generalizing n with
  | nil => intro _; exact List.Pairwise.nil
  | cons u us ih =>
    intro h
    rcases List.pairwise_cons.mp h with ⟨hhead, htail⟩
    refine List.Pairwise.cons ?_ (ih (n + 1) htail)
    intro e he
    rcases mem_entriesFrom he with ⟨v, hv, m, rfl⟩
    exact hco u v n m (hhead v hv)

/-! ## C9 — leaderboard ordering, truncation and positions -/

/-- **C9.** `leaderboard(limit)` returns at most `limit` entries ordered by
current-round captures descending, ties broken by lifetime captures
descending, with position fields numbered `1..n` in output order; being a pure
function of the participant state, the returned ordering is identical on every
call over identical state (reproducible). -/
theorem getLeaderboard_spec (us : Users) (limit : Nat) :
    (getLeaderboard us limit).length ≤ limit ∧
    List.Pairwise (fun e f : LeaderboardEntry =>
        f.roundCaptures ≤ e.roundCaptures ∧
        (f.roundCaptures = e.roundCaptures → f.capturesCount ≤ e.capturesCount))
      (getLeaderboard us limit) ∧
    (getLeaderboard us limit).map (fun e => e.position) =
      List.range' 1 (getLeaderboard us limit).length ∧
    (∀ us2 : Users, us2 = us → getLeaderboard us2 limit = getLeaderboard us limit) := by
  refine ⟨?_, ?_, ?_, ?_⟩
  · unfold getLeaderboard
    rw [entriesFrom_length, List.length_take]
    exact min_le_left _ _
  · unfold getLeaderboard
    apply entriesFrom_pairwise (fun u v : User => lbLE u v = true)
    · intro u v n m hS
      simp only [lbLE, decide_eq_true_eq] at hS
      constructor
      · simp only [entryOf]
        omega
      · simp only [entryOf]
        omega
    · exact List.Pairwise.sublist (List.take_sublist _ _)
        (List.sorted_mergeSort lbLE_trans lbLE_total us)
  · unfold getLeaderboard
    rw [entriesFrom_positions, entriesFrom_length]
  · intro us2 h
    rw [h]

/-! ## Rate-limiter lemmas -/

theorem rlStep_denied {maxRequests windowMs now : Nat} {st : RateEntry}
    (h : maxRequests ≤ (st.filter fun ts => decide (now - ts < windowMs)).length) :
    rlStep maxRequests windowMs st now = (false, st) := by
  unfold rlStep
  rw [if_pos h]

theorem rlStep_allowed {maxRequests windowMs now : Nat} {st : RateEntry}
    (h : ¬ maxRequests ≤ (st.filter fun ts => decide (now - ts < windowMs)).length) :
    rlStep maxRequests windowMs st now =
      (true, (st.filter fun ts => decide (now - ts < windowMs)) ++ [now]) := by
  unfold rlStep
  rw [if_neg h]

theorem rlRun_cons (maxRequests windowMs : Nat) (st : RateEntry) (t : Nat)
    (ts : List Nat) :
    rlRun maxRequests windowMs st (t :: ts) =
      if (rlStep maxRequests windowMs st t).1 then
        t :: rlRun maxRequests windowMs (rlStep maxRequests windowMs st t).2 ts
      else rlRun maxRequests windowMs (rlStep maxRequests windowMs st t).2 ts := rfl

theorem rlRun_subset (maxRequests windowMs : Nat) :
    ∀ (trace : List Nat) (st : RateEntry) (x : Nat),
      x ∈ rlRun maxRequests windowMs st trace → x ∈ trace := by
  intro trace
  induction trace with
  | nil => intro st x hx; cases hx
  | cons t ts ih =>
    intro st x hx
    rw [rlRun_cons] at hx
    by_cases hr : (rlStep maxRequests windowMs st t).1 = true
    · rw [if_pos hr] at hx
      rcases List.mem_cons.mp hx with rfl | hx
      · exact List.mem_cons_self _ _
      · exact List.mem_cons_of_mem _ (ih _ _ hx)
    · rw [if_neg hr] at hx
      exact List.mem_cons_of_mem _ (ih _ _ hx)

/-- The inductive invariant behind the rolling-window bound: if the stored
timestamps all precede the remaining trace and at most `maxRequests` of them
lie in the window `[a, a + windowMs)`, then the stored in-window timestamps
plus the in-window timestamps of subsequently *allowed* calls never exceed
`maxRequests`. -/
theorem rlRun_window_invariant (maxRequests windowMs : Nat) :
    ∀ (trace : List Nat) (st : RateEntry) (a : Nat),
      trace.Pairwise (· ≤ ·) →
      (∀ s ∈ st, ∀ t ∈ trace, s ≤ t) →
      (st.filter fun s => decide (a ≤ s ∧ s < a + windowMs)).length ≤ maxRequests →
      (st.filter fun s => decide (a ≤ s ∧ s < a + windowMs)).length +
        ((rlRun maxRequests windowMs st trace).filter
            fun s => decide (a ≤ s ∧ s < a + windowMs)).length ≤ maxRequests := by
  intro trace
  induction trace with
  | nil =>
    intro st a _ _ hk
    simpa [rlRun] using hk
  | cons t ts ih =>
    intro st a hsort hle hk
    rcases List.pairwise_cons.mp hsort with ⟨hthead, htail⟩
    by_cases hallow : maxRequests ≤
        (st.filter fun ts0 => decide (t - ts0 < windowMs)).length
    · -- the call at `t` is denied and the stored list is unchanged
      rw [rlRun_cons, rlStep_denied hallow]
      simp only [Bool.false_eq_true, if_false]
      exact ih st a htail
        (fun s hs t' ht' => hle s hs t' (List.mem_cons_of_mem _ ht')) hk
    · -- the call at `t` is allowed and recorded
      rw [rlRun_cons, rlStep_allowed hallow]
      simp only [if_true]
      have hle2 : ∀ s ∈ (st.filter fun ts0 => decide (t - ts0 < windowMs)) ++ [t],
          ∀ t' ∈ ts, s ≤ t' := by
        intro s hs t' ht'
        rcases List.mem_append.mp hs with hs | hs
        · exact hle s (List.mem_of_mem_filter hs) t' (List.mem_cons_of_mem _ ht')
        · rcases List.mem_singleton.mp hs with rfl
          exact hthead t' ht'
      by_cases hta : t < a
      · -- the call is before the window: nothing stored or emitted lies in it yet
        have hk0 : (st.filter fun s => decide (a ≤ s ∧ s < a + windowMs)) = [] := by
          rw [List.filter_eq_nil_iff]
          intro s hs
          have hst : s ≤ t := hle s hs t (List.mem_cons_self _ _)
          simp only [decide_eq_true_eq, not_and]
          intro ha
          omega
        have hsub : (((st.filter fun ts0 => decide (t - ts0 < windowMs)) ++ [t]).filter
            fun s => decide (a ≤ s ∧ s < a + windowMs)) = [] := by
          rw [List.filter_eq_nil_iff]
          intro s hs
          rcases List.mem_append.mp hs with hs | hs
          · have hst : s ≤ t := hle s (List.mem_of_mem_filter hs) t (List.mem_cons_self _ _)
            simp only [decide_eq_true_eq, not_and]
            intro ha
            omega
          · rcases List.mem_singleton.mp hs with rfl
            simp only [decide_eq_true_eq, not_and]
            intro ha
            omega
        have hIH := ih ((st.filter fun ts0 => decide (t - ts0 < windowMs)) ++ [t]) a
          htail hle2 (by rw [hsub]; exact Nat.zero_le _)
        rw [hsub] at hIH
        rw [hk0]
        simp only [List.length_nil, Nat.zero_add] at hIH ⊢
        rw [List.filter_cons]
        rw [show (decide (a ≤ t ∧ t < a + windowMs)) = false by simp; omega]
        exact hIH
      · by_cases htw : a + windowMs ≤ t
        · -- the call is past the window: every later allowed time is too
          have hout : ((t :: rlRun maxRequests windowMs
              ((st.filter fun ts0 => decide (t - ts0 < windowMs)) ++ [t]) ts).filter
                fun s => decide (a ≤ s ∧ s < a + windowMs)) = [] := by
            rw [List.filter_eq_nil_iff]
            intro s hs
            rcases List.mem_cons.mp hs with rfl | hs
            · simp only [decide_eq_true_eq, not_and]
              intro ha
              omega
            · have hts : s ∈ ts := rlRun_subset maxRequests windowMs ts _ s hs
              have : t ≤ s := hthead s hts
              simp only [decide_eq_true_eq, not_and]
              intro ha
              omega
          rw [hout]
          simpa using hk
        · -- the call lands inside the window `[a, a + windowMs)`
          have hta' : a ≤ t := Nat.le_of_not_lt hta
          have htw' : t < a + windowMs := Nat.lt_of_not_le htw
          have hff : ((st.filter fun ts0 => decide (t - ts0 < windowMs)).filter
                fun s => decide (a ≤ s ∧ s < a + windowMs)) =
              st.filter fun s => decide (a ≤ s ∧ s < a + windowMs) := by
            rw [List.filter_filter]
            apply List.filter_congr
            intro s hs
            have hst : s ≤ t := hle s hs t (List.mem_cons_self _ _)
            by_cases hsw : a ≤ s ∧ s < a + windowMs
            · have h1 : decide (a ≤ s ∧ s < a + windowMs) = true := by simp [hsw]
              have h2 : decide (t - s < windowMs) = true := by
                simp only [decide_eq_true_eq]
                omega
              rw [h1, h2]
              rfl
            · have h1 : decide (a ≤ s ∧ s < a + windowMs) = false := by simp [hsw]
              rw [h1]
              exact Bool.false_and _
          have hvlt : (st.filter fun ts0 => decide (t - ts0 < windowMs)).length <
              maxRequests := Nat.lt_of_not_le hallow
          have hkv : (st.filter fun s => decide (a ≤ s ∧ s < a + windowMs)).length ≤
              (st.filter fun ts0 => decide (t - ts0 < windowMs)).length := by
            rw [← hff]
            exact List.length_filter_le _ _
          have hst2 : (((st.filter fun ts0 => decide (t - ts0 < windowMs)) ++ [t]).filter
                fun s => decide (a ≤ s ∧ s < a + windowMs)).length =
              (st.filter fun s => decide (a ≤ s ∧ s < a + windowMs)).length + 1 := by
            rw [List.filter_append, hff]
            rw [List.length_append]
            congr 1
            rw [List.filter_cons]
            rw [show (decide (a ≤ t ∧ t < a + windowMs)) = true by
              simp only [decide_eq_true_eq]; exact ⟨hta', htw'⟩]
            rfl
          have hIH := ih ((st.filter fun ts0 => decide (t - ts0 < windowMs)) ++ [t]) a
            htail hle2 (by rw [hst2]; omega)
          rw [hst2] at hIH
          rw [List.filter_cons,
            if_pos (show (decide (a ≤ t ∧ t < a + windowMs)) = true by
              simp only [decide_eq_true_eq]; exact ⟨hta', htw'⟩)]
          simp only [List.length_cons]
          omega

/-! ## C8 — the sliding-window rate limiter -/

/-- **C8.** For every identity and every (chronologically ordered) sequence of
`isAllowed(id, maxRequests, windowMs)` calls, at most `maxRequests` calls are
allowed within any rolling interval `[a, a + windowMs)`; a call is allowed if
and only if, after discarding that identity's recorded timestamps outside the
window, fewer than `maxRequests` remain; only allowed calls record a new
timestamp, a denied call leaving both the identity's recorded timestamps and
the whole map unchanged; and the map-level `isAllowed` acts on exactly the
calling identity's entry (empty for an unknown identity). -/
theorem rateLimiter_spec (maxRequests windowMs : Nat) (trace : List Nat)
    (hsort : trace.Pairwise (· ≤ ·)) :
    (∀ a : Nat,
      ((rlRun maxRequests windowMs [] trace).filter
          fun s => decide (a ≤ s ∧ s < a + windowMs)).length ≤ maxRequests) ∧
    (∀ (st : RateEntry) (now : Nat),
      (rlStep maxRequests windowMs st now).1 = true ↔
        (st.filter fun ts => decide (now - ts < windowMs)).length < maxRequests) ∧
    (∀ (st : RateEntry) (now : Nat),
      (rlStep maxRequests windowMs st now).1 = false →
        (rlStep maxRequests windowMs st now).2 = st) ∧
    (∀ (st : RateEntry) (now : Nat),
      (rlStep maxRequests windowMs st now).1 = true →
        (rlStep maxRequests windowMs st now).2 =
          (st.filter fun ts => decide (now - ts < windowMs)) ++ [now]) ∧
    (∀ (m : RateMap) (id : String) (now : Nat),
      (isAllowed m id maxRequests windowMs now).1 =
        (rlStep maxRequests windowMs ((m.lookup id).getD []) now).1 ∧
      ((rlStep maxRequests windowMs ((m.lookup id).getD []) now).1 = false →
        (isAllowed m id maxRequests windowMs now).2 = m)) := by
  refine ⟨?_, ?_, ?_, ?_, ?_⟩
  · intro a
    have h := rlRun_window_invariant maxRequests windowMs trace [] a hsort
      (by intro s hs; cases hs) (by simp)
    simpa using h
  · intro st now
    by_cases h : maxRequests ≤ (st.filter fun ts => decide (now - ts < windowMs)).length
    · rw [rlStep_denied h]
      simp
      omega
    · rw [rlStep_allowed h]
      simp
      omega
  · intro st now h
    by_cases hd : maxRequests ≤ (st.filter fun ts => decide (now - ts < windowMs)).length
    · rw [rlStep_denied hd]
    · rw [rlStep_allowed hd] at h
      simp at h
  · intro st now h
    by_cases hd : maxRequests ≤ (st.filter fun ts => decide (now - ts < windowMs)).length
    · rw [rlStep_denied hd] at h
      simp at h
    · rw [rlStep_allowed hd]
  · intro m id now
    constructor
    · unfold isAllowed
      by_cases h : (rlStep maxRequests windowMs ((m.lookup id).getD []) now).1 = true
      · rw [if_pos h, h]
      · rw [if_neg h]
        simp only [Bool.not_eq_true] at h
        rw [h]
    · intro h
      simp [isAllowed, h]

/-- Witness for C8 with `maxRequests = 2`, `windowMs = 1000` and the ordered
trace `[0, 100, 200, 1500]`: the call at 200 is denied, and no window of
length 1000 contains more than 2 allowed calls. -/
theorem rateLimiter_spec_witness :
    List.Pairwise (· ≤ ·) [0, 100, 200, 1500] ∧
    ((rlRun 2 1000 [] [0, 100, 200, 1500]).filter
        fun s => decide (0 ≤ s ∧ s < 0 + 1000)).length ≤ 2 := by
  refine ⟨by decide, ?_⟩
  exact (rateLimiter_spec 2 1000 [0, 100, 200, 1500] (by decide)).1 0

/-! ## C1 — winner determination at round end -/

/-- **C1 (code bug).** When the round-end timer fires it invokes `endRound()`
with *no* `topPlayers` argument (`setTimeout(() => { this.endRound(); }, …)`),
so although `endRound` contains the winner-from-leaderboard logic the claim
describes, on the timer path the `RoundState` ends with `winner = null` even
while a participant with positive round captures tops the leaderboard.  The
body of `endRound` does implement the claimed computation when a non-empty
leaderboard is passed (last conjunct), which is what makes the no-argument
timer call a slip rather than a design choice. -/
theorem round_timer_winner_bug :
    (getLeaderboard
        [⟨"u1", "s1", "Alice", "#fff", "Neon Wolves", 3, 3, 1, .bronze, 0, 0⟩]
        5).head? =
      some (entryOf ⟨"u1", "s1", "Alice", "#fff", "Neon Wolves", 3, 3, 1, .bronze, 0, 0⟩ 1) ∧
    (roundTimerFire (startRound (RoundService.init 300000 10000) 1000)).status = .ended ∧
    (roundTimerFire (startRound (RoundService.init 300000 10000) 1000)).winner = none ∧
    (endRound (startRound (RoundService.init 300000 10000) 1000)
        (getLeaderboard
          [⟨"u1", "s1", "Alice", "#fff", "Neon Wolves", 3, 3, 1, .bronze, 0, 0⟩]
          5)).winner =
      some ⟨"Alice", "#fff", "Neon Wolves", 3⟩ := by
  have hlb : getLeaderboard
      [⟨"u1", "s1", "Alice", "#fff", "Neon Wolves", 3, 3, 1, .bronze, 0, 0⟩] 5 =
      [entryOf ⟨"u1", "s1", "Alice", "#fff", "Neon Wolves", 3, 3, 1, .bronze, 0, 0⟩ 1] := by
    unfold getLeaderboard
    rw [List.mergeSort_singleton]
    rfl
  refine ⟨?_, rfl, rfl, ?_⟩
  · rw [hlb]
    rfl
  · rw [hlb]
    rfl

/-! ## Handler lemmas -/

theorem energySet_lookup_self (m : EnergyMap) (userId : String) (s : EnergyState) :
    (energySet m userId s).lookup userId = some s := by
  unfold energySet
  by_cases hsome : (m.lookup userId).isSome
  · rw [if_pos hsome]
    induction m with
    | nil => simp at hsome
    | cons e rest ih =>
      obtain ⟨k, v⟩ := e
      simp only [List.map_cons]
      by_cases hk : k = userId
      · rw [if_pos hk]
        subst hk
        exact List.lookup_cons_self
      · have hbeq : (userId == k) = false := by
          simp only [beq_eq_false_iff_ne, ne_eq]
          exact fun h => hk h.symm
        rw [if_neg hk]
        rw [List.lookup_cons, hbeq]
        rw [List.lookup_cons, hbeq] at hsome
        exact ih hsome
  · rw [if_neg hsome]
    rw [List.lookup_append]
    rw [Option.not_isSome_iff_eq_none.mp hsome]
    rw [List.lookup_cons]
    simp

theorem getUserById_incrementCaptureCount {us : Users} {userId : String}
    {u : User} (points : Nat) (h : getUserById us userId = some u) :
    getUserById (incrementCaptureCount us userId points).2 userId =
      some { u with capturesCount := u.capturesCount + points,
                    roundCaptures := u.roundCaptures + points,
                    streak := u.streak + 1,
                    rank := getRankTier (u.capturesCount + points) } := by
  have hid := getUserById_id h
  unfold incrementCaptureCount
  rw [h]
  dsimp only
  exact getUserById_map_set h hid

theorem updateUserActivity_preserves (us : Users) (userId : String) (now : Nat) :
    ∀ u ∈ us, ∃ u2 ∈ updateUserActivity us userId now,
      u2.id = u.id ∧ u2.capturesCount = u.capturesCount ∧
      u2.roundCaptures = u.roundCaptures ∧ u2.rank = u.rank ∧ u2.streak = u.streak := by
  intro u hu
  refine ⟨if u.id = userId then { u with lastActivity := now } else u,
    List.mem_map_of_mem _ hu, ?_⟩
  by_cases h : u.id = userId <;> simp [h]

/-! ## C3 — energy consumed in stage 4 is not refunded on a stage-5 cooldown
rejection -/

/-- **C3.** For a capture request that passes the identity, round-active, rate
and energy stages but is rejected by the grid cooldown check: the energy
deducted in the energy stage is not refunded — the requester's stored energy
is exactly the post-regeneration value minus the capture cost — no tile
state, capture count, rank or streak changes (only the requester's
`lastActivity` is touched), and the only emission is a capture-rejected event
delivered to the requester alone, never broadcast. -/
theorem energy_not_refunded_on_cooldown
    (cfg : Config) (st : ServerState) (socketId : String) (cellId : CellId)
    (now : Nat) (user : User) (e0 : EnergyState) (cell : Cell)
    (huser : getUserBySocket st.users socketId = some user)
    (hactive : st.round.status = .active)
    (hrate : (isAllowed st.rate user.id cfg.maxCapturesPerSecond
        cfg.rateLimitWindowMs now).1 = true)
    (henergy : st.energy.lookup user.id = some e0)
    (hcost : ¬((applyRegen e0 now).current < (cfg.energy.captureCost : Int)))
    (hcell : st.grid.lookup cellId = some cell)
    (hne : cell.lastCapturedAt ≠ 0)
    (hcd : (now : Int) - cell.lastCapturedAt < cfg.cooldownMs) :
    handleCaptureRequest cfg st socketId cellId now =
      ({ st with
           rate := (isAllowed st.rate user.id cfg.maxCapturesPerSecond
             cfg.rateLimitWindowMs now).2,
           energy := energySet st.energy user.id
             { applyRegen e0 now with
                 current := (applyRegen e0 now).current - cfg.energy.captureCost,
                 lastRegenAt := now },
           users := updateUserActivity st.users user.id now },
       [⟨false, .captureRejected cellId .cellOnCooldown⟩]) ∧
    (handleCaptureRequest cfg st socketId cellId now).1.energy.lookup user.id =
      some { applyRegen e0 now with
               current := (applyRegen e0 now).current - cfg.energy.captureCost,
               lastRegenAt := now } ∧
    (handleCaptureRequest cfg st socketId cellId now).1.grid = st.grid ∧
    (∀ u ∈ st.users,
      ∃ u2 ∈ (handleCaptureRequest cfg st socketId cellId now).1.users,
        u2.id = u.id ∧ u2.capturesCount = u.capturesCount ∧
        u2.roundCaptures = u.roundCaptures ∧ u2.rank = u.rank ∧
        u2.streak = u.streak) ∧
    (∀ s ∈ (handleCaptureRequest cfg st socketId cellId now).2, s.toAll = false) := by
  have hmain : handleCaptureRequest cfg st socketId cellId now =
      ({ st with
           rate := (isAllowed st.rate user.id cfg.maxCapturesPerSecond
             cfg.rateLimitWindowMs now).2,
           energy := energySet st.energy user.id
             { applyRegen e0 now with
                 current := (applyRegen e0 now).current - cfg.energy.captureCost,
                 lastRegenAt := now },
           users := updateUserActivity st.users user.id now },
       [⟨false, .captureRejected cellId .cellOnCooldown⟩]) := by
    unfold handleCaptureRequest
    rw [huser]
    dsimp only
    rw [hactive]
    rw [if_neg (by simp)]
    rw [hrate]
    rw [if_neg (by simp)]
    rw [show ({ st with rate := (isAllowed st.rate user.id cfg.maxCapturesPerSecond
        cfg.rateLimitWindowMs now).2 } : ServerState).energy = st.energy from rfl]
    rw [consumeEnergy_success henergy hcost]
    dsimp only
    rw [if_neg (by simp)]
    rw [captureCell_of_cooldown hcell hne hcd]
  refine ⟨hmain, ?_, ?_, ?_, ?_⟩
  · rw [hmain]
    exact energySet_lookup_self _ _ _
  · rw [hmain]
  · intro u hu
    rw [hmain]
    exact updateUserActivity_preserves st.users user.id now u hu
  · intro s hs
    rw [hmain] at hs
    rcases List.mem_singleton.mp hs with rfl
    rfl

/-- The concrete configuration of the deployed server (`index.ts`):
cooldown 5000 ms, 10 captures per 1000 ms, energy 100 max / 5 cost / 1 per
second. -/
def demoConfig : Config :=
  { cooldownMs := 5000, maxCapturesPerSecond := 10, rateLimitWindowMs := 1000,
    energy := ⟨100, 5, 1⟩ }

def demoUser : User :=
  ⟨"u1", "s1", "Alice", "#fff", "Neon Wolves", 0, 0, 0, .bronze, 0, 0⟩

def demoState : ServerState :=
  { users := [demoUser],
    energy := [("u1", ⟨100, 100, 1, 0⟩)],
    rate := [],
    grid := [((3, 4), ⟨none, none, 1000, false⟩)],
    round := { roundNumber := 1, status := .active, startedAt := 0,
               endsAt := 300000, durationMs := 300000, cooldownMs := 10000,
               winner := none } }

/-- Witness for C3: a fresh participant (full energy, empty rate window)
re-requests the tile last captured at 1000 ms at `now = 2000` — the cooldown
rejects, the only emission is a requester-targeted rejection, and the stored
energy is the regenerated value minus the 5-energy cost (95, not 100). -/
theorem energy_not_refunded_on_cooldown_witness :
    getUserBySocket demoState.users "s1" = some demoUser ∧
    (handleCaptureRequest demoConfig demoState "s1" (3, 4) 2000).2 =
      [⟨false, .captureRejected (3, 4) .cellOnCooldown⟩] ∧
    (handleCaptureRequest demoConfig demoState "s1" (3, 4) 2000).1.energy.lookup "u1" =
      some { applyRegen ⟨100, 100, 1, 0⟩ 2000 with
               current := (applyRegen ⟨100, 100, 1, 0⟩ 2000).current -
                 demoConfig.energy.captureCost,
               lastRegenAt := 2000 } ∧
    (handleCaptureRequest demoConfig demoState "s1" (3, 4) 2000).1.grid =
      demoState.grid := by
  have h := energy_not_refunded_on_cooldown demoConfig demoState "s1" (3, 4) 2000
    demoUser ⟨100, 100, 1, 0⟩ ⟨none, none, 1000, false⟩
    rfl rfl (by decide) rfl (by decide) rfl (by decide) (by decide)
  refine ⟨rfl, ?_, h.2.1, h.2.2.1⟩
  rw [h.1]

/-! ## C6 — cluster-bonus detection after a successful capture -/

/-- **C6.** After every successful capture the handler computes
`findLargestCluster` — the largest 4-connected component of the capturer's
owned tiles — over the updated grid; a cluster-bonus event (carrying exactly
`⌊size / 5⌋` bonus points) is emitted if and only if the size is ≥ 5 and an
exact multiple of 5, in which case exactly `⌊size / 5⌋` bonus points are also
credited to the capturer's lifetime and round capture totals (and nothing
extra is credited otherwise); in particular a connected group completing
exactly 10 tiles yields a bonus of 2 at that capture event. -/
theorem cluster_bonus_spec (st : ServerState) (user : User) (cellId : CellId)
    (cell : Cell) (points : Nat) (es : EnergyState) (u : User)
    (hu : getUserById st.users user.id = some u) :
    ((handleCaptureSuccess st user cellId cell points es).2.filter
        Sent.isClusterBonus =
      if 5 ≤ (findLargestCluster st.grid user.id).1 ∧
         (findLargestCluster st.grid user.id).1 % 5 = 0 then
        [⟨true, .clusterBonus user.id (findLargestCluster st.grid user.id).1
            ((findLargestCluster st.grid user.id).1 / 5)⟩]
      else []) ∧
    (5 ≤ (findLargestCluster st.grid user.id).1 ∧
        (findLargestCluster st.grid user.id).1 % 5 = 0 →
      getUserById (handleCaptureSuccess st user cellId cell points es).1.users
          user.id =
        some { u with
          capturesCount := u.capturesCount + points +
            (findLargestCluster st.grid user.id).1 / 5,
          roundCaptures := u.roundCaptures + points +
            (findLargestCluster st.grid user.id).1 / 5,
          streak := u.streak + 1 + 1,
          rank := getRankTier (u.capturesCount + points +
            (findLargestCluster st.grid user.id).1 / 5) }) ∧
    (¬(5 ≤ (findLargestCluster st.grid user.id).1 ∧
        (findLargestCluster st.grid user.id).1 % 5 = 0) →
      getUserById (handleCaptureSuccess st user cellId cell points es).1.users
          user.id =
        some { u with
          capturesCount := u.capturesCount + points,
          roundCaptures := u.roundCaptures + points,
          streak := u.streak + 1,
          rank := getRankTier (u.capturesCount + points) }) ∧
    ((findLargestCluster st.grid user.id).1 = 10 →
      (handleCaptureSuccess st user cellId cell points es).2.filter
          Sent.isClusterBonus =
        [⟨true, .clusterBonus user.id 10 2⟩]) := by
  have hu1 := getUserById_incrementCaptureCount points hu
  have hfilter : (handleCaptureSuccess st user cellId cell points es).2.filter
      Sent.isClusterBonus =
      (if 5 ≤ (findLargestCluster st.grid user.id).1 ∧
          (findLargestCluster st.grid user.id).1 % 5 = 0 then
        [⟨true, .clusterBonus user.id (findLargestCluster st.grid user.id).1
            ((findLargestCluster st.grid user.id).1 / 5)⟩]
      else []) := by
    unfold handleCaptureSuccess
    dsimp only
    by_cases hcond : 5 ≤ (findLargestCluster st.grid user.id).1 ∧
        (findLargestCluster st.grid user.id).1 % 5 = 0
    · rw [if_pos hcond, if_pos hcond]
      rcases hrk : (incrementCaptureCount st.users user.id points).1.rankUp with _ | r
      · simp [hrk, Sent.isClusterBonus, List.filter_append]
      · simp [hrk, Sent.isClusterBonus, List.filter_append]
    · rw [if_neg hcond, if_neg hcond]
      rcases hrk : (incrementCaptureCount st.users user.id points).1.rankUp with _ | r
      · simp [hrk, Sent.isClusterBonus, List.filter_append]
      · simp [hrk, Sent.isClusterBonus, List.filter_append]
  refine ⟨hfilter, ?_, ?_, ?_⟩
  · intro hcond
    have h2 := getUserById_incrementCaptureCount
      ((findLargestCluster st.grid user.id).1 / 5) hu1
    unfold handleCaptureSuccess
    dsimp only
    rw [if_pos hcond]
    dsimp only
    rw [h2]
  · intro hcond
    unfold handleCaptureSuccess
    dsimp only
    rw [if_neg hcond]
    dsimp only
    rw [hu1]
  · intro h10
    rw [hfilter, h10]
    rw [if_pos (by omega)]

/-- Witness for C6 at the concrete demo state: the registered participant is
found, and the cluster-bonus emission follows the size-multiple-of-5 rule. -/
theorem cluster_bonus_spec_witness :
    getUserById demoState.users demoUser.id = some demoUser ∧
    ((handleCaptureSuccess demoState demoUser (3, 4)
        ⟨some "u1", some "#fff", 2000, false⟩ 1 ⟨95, 100, 1, 2000⟩).2.filter
          Sent.isClusterBonus =
      if 5 ≤ (findLargestCluster demoState.grid demoUser.id).1 ∧
         (findLargestCluster demoState.grid demoUser.id).1 % 5 = 0 then
        [⟨true, .clusterBonus demoUser.id
            (findLargestCluster demoState.grid demoUser.id).1
            ((findLargestCluster demoState.grid demoUser.id).1 / 5)⟩]
      else []) :=
  ⟨rfl, (cluster_bonus_spec demoState demoUser (3, 4)
      ⟨some "u1", some "#fff", 2000, false⟩ 1 ⟨95, 100, 1, 2000⟩ demoUser rfl).1⟩

end GridWars
